import Mathlib

set_option maxHeartbeats 1000000

/-!
Verification of the WCPCI run subsystem against its specification.

Strings from the Rust code are embedded as `List Char`; `usize`/`u64`/`i64`/
`i32` values as `Nat` or `Int`; fallible operations as `Option`/`Except`.
A Rust panic (index out of bounds, usize underflow) is modelled as `none`.
-/

/-! ## List helper lemmas -/

theorem countP_set_of_getElem {α : Type} (p : α → Bool) (l : List α) (i : Nat) (a x : α)
    (h : l[i]? = some x) :
    (l.set i a).countP p + (if p x then 1 else 0) = l.countP p + (if p a then 1 else 0) := by
  induction l generalizing i with
  | nil => simp at h
  | cons hd tl ih =>
    cases i with
    | zero =>
      simp only [List.getElem?_cons_zero, Option.some.injEq] at h
      subst h
      simp only [List.set_cons_zero, List.countP_cons]
      omega
    | succ n =>
      simp only [List.getElem?_cons_succ] at h
      simp only [List.set_cons_succ, List.countP_cons]
      have := ih n h
      omega

theorem dropWhile_append_of_all {α : Type} (p : α → Bool) (a b : List α)
    (h : ∀ x ∈ a, p x = true) :
    (a ++ b).dropWhile p = b.dropWhile p := by
  induction a with
  | nil => simp
  | cons hd tl ih =>
    have hp : p hd = true := h hd (by simp)
    simp only [List.cons_append, List.dropWhile_cons, hp, if_true]
    exact ih (fun x hx => h x (by simp [hx]))

/-! ## Case and job state (src/src/run/job.rs) -/

/-- `CaseStatus` from src/src/run/job.rs: status of one test case. -/
inductive CaseStatus where
  | Pending
  | Running
  | Passed (output : Option (List Char))
  | NotRun
  | Failed (penalty : Bool) (msg : List Char)
deriving DecidableEq

/-- `matches!(c, CaseStatus::Running)`. -/
def CaseStatus.isRunning : CaseStatus → Bool
  | CaseStatus.Running => true
  | _ => false

/-- `matches!(c, CaseStatus::Failed(_, _))`. -/
def CaseStatus.isFailed : CaseStatus → Bool
  | CaseStatus.Failed _ _ => true
  | _ => false

/-- The statuses the job engine ever passes to `complete_case`:
`Passed` (successful case) or `Failed` (converted from a `CaseError`). -/
def CaseStatus.isTerminal : CaseStatus → Bool
  | CaseStatus.Passed _ => true
  | CaseStatus.Failed _ _ => true
  | _ => false

/-- `JobState` from src/src/run/job.rs. -/
inductive JobState where
  | Judging (cases : List CaseStatus) (complete : Bool)
  | Testing (status : CaseStatus)
deriving DecidableEq

/-- `JobState::new_judging`: one `Pending` per case, `complete = false`. -/
def JobState.new_judging (cases : Nat) : JobState :=
  JobState.Judging (List.replicate cases CaseStatus.Pending) false

/-- `JobState::new_testing`. -/
def JobState.new_testing : JobState :=
  JobState.Testing CaseStatus.Pending

/-- `JobState::start_first`. The Rust assignment `cases[0] = Running`
panics on an empty vector; the panic is modelled as `none`. -/
def JobState.start_first : JobState → Option JobState
  | JobState.Judging cases complete =>
      if 0 < cases.length then
        some (JobState.Judging (cases.set 0 CaseStatus.Running) complete)
      else none
  | JobState.Testing _ => some (JobState.Testing CaseStatus.Running)

/-- `JobState::complete_case`. On `Judging` the source computes
`cases.len() - 1` (usize underflow panics on an empty vector, and the later
`cases[idx] = status` writes are out of bounds there in any case), mutates
`complete`, rewrites every case after `idx` to `NotRun` on a failure that is
not in last position, otherwise starts case `idx + 1`, and finally stores
`status` at `idx`.  Each panicking index access is modelled as `none`. -/
def JobState.complete_case : JobState → Nat → CaseStatus → Option JobState
  | JobState.Judging cases complete, idx, status =>
      if cases.length = 0 then none
      else if idx = cases.length - 1 then
        some (JobState.Judging (cases.set idx status) true)
      else if status.isFailed then
        if idx < cases.length then
          some (JobState.Judging
            ((cases.take (idx + 1) ++
              List.replicate (cases.length - (idx + 1)) CaseStatus.NotRun).set idx status) true)
        else none
      else
        if idx + 1 < cases.length then
          some (JobState.Judging
            ((cases.set (idx + 1) CaseStatus.Running).set idx status) complete)
        else none
  | JobState.Testing _, _, status => some (JobState.Testing status)

/-- `JobState::force_fail`: fail the currently `Running` case
(position of the first `Running`, or 0) with no penalty. -/
def JobState.force_fail (s : JobState) (msg : List Char) : Option JobState :=
  match s with
  | JobState.Judging cases complete =>
      JobState.complete_case (JobState.Judging cases complete)
        ((cases.findIdx? CaseStatus.isRunning).getD 0) (CaseStatus.Failed false msg)
  | JobState.Testing _ => some (JobState.Testing (CaseStatus.Failed true msg))

/-- Number of cases currently in state `Running`. -/
def JobState.runningCount : JobState → Nat
  | JobState.Judging cases _ => cases.countP CaseStatus.isRunning
  | JobState.Testing st => if st.isRunning then 1 else 0

/-- Case `idx` of the state is `Running` (the index the job engine passes to
`complete_case` while iterating). -/
def JobState.isRunningAt (s : JobState) (idx : Nat) : Prop :=
  match s with
  | JobState.Judging cases _ => cases[idx]? = some CaseStatus.Running
  | JobState.Testing st => idx = 0 ∧ st = CaseStatus.Running

/-! ## C10: judging operations on an empty case list -/

/-- C10: a `Judging` state built from an empty case list has no valid
operation: `start_first` indexes `cases[0]` and `complete_case` evaluates
`cases.len() - 1` and then writes `cases[idx]`, so both panic (index out of
bounds / usize underflow) instead of returning an error; the panics are the
`none` results of the embedding. -/
theorem empty_judging_panics :
    JobState.start_first (JobState.new_judging 0) = none ∧
    ∀ (idx : Nat) (st : CaseStatus),
      JobState.complete_case (JobState.new_judging 0) idx st = none := by
  constructor
  · rfl
  · intro idx st
    rfl

/-! ## C2: functional correctness of complete_case -/

/-- C2: for a `Judging` state with at least one case, any in-range index and
any status: `complete_case` stores the status at `idx`; a `Failed` status off
the last index marks every later case `NotRun` and sets `complete`;
completing the last index sets `complete`; otherwise case `idx + 1` becomes
`Running` and the `complete` flag stays as it was (so it stays `false`
during a live job). -/
theorem complete_case_spec (cs : List CaseStatus) (b : Bool) (idx : Nat) (st : CaseStatus)
    (hlen : 0 < cs.length) (hidx : idx < cs.length) :
    ∃ rest b2,
      JobState.complete_case (JobState.Judging cs b) idx st = some (JobState.Judging rest b2) ∧
      rest.length = cs.length ∧
      rest[idx]? = some st ∧
      (st.isFailed = true → idx ≠ cs.length - 1 →
        b2 = true ∧ ∀ j, idx < j → j < cs.length → rest[j]? = some CaseStatus.NotRun) ∧
      (idx = cs.length - 1 → b2 = true) ∧
      (st.isFailed = false → idx ≠ cs.length - 1 →
        rest[idx + 1]? = some CaseStatus.Running ∧ b2 = b) := by
  have hne : cs.length ≠ 0 := by omega
  simp only [JobState.complete_case, if_neg hne]
  by_cases hlast : idx = cs.length - 1
  · rw [if_pos hlast]
    refine ⟨cs.set idx st, true, rfl, by simp, List.getElem?_set_self hidx,
      fun _ hne2 => absurd hlast hne2, fun _ => rfl, fun _ hne2 => absurd hlast hne2⟩
  · rw [if_neg hlast]
    by_cases hf : st.isFailed = true
    · rw [if_pos hf, if_pos hidx]
      refine ⟨_, true, rfl, ?_, ?_, ?_, fun hl => absurd hl hlast, ?_⟩
      · simp
        omega
      · exact List.getElem?_set_self (by simp; omega)
      · intro _ _
        refine ⟨rfl, ?_⟩
        intro j hj1 hj2
        rw [List.getElem?_set_ne (by omega)]
        rw [List.getElem?_append_right (by simp; omega)]
        rw [List.getElem?_replicate]
        rw [if_pos (by simp; omega)]
      · intro hf2 _
        rw [hf] at hf2
        exact absurd hf2 (by simp)
    · rw [if_neg hf]
      have h3 : idx + 1 < cs.length := by omega
      rw [if_pos h3]
      refine ⟨_, b, rfl, by simp, ?_, ?_, fun hl => absurd hl hlast, ?_⟩
      · exact List.getElem?_set_self (by simp; omega)
      · intro hf2 _
        exact absurd hf2 hf
      · intro _ _
        refine ⟨?_, rfl⟩
        rw [List.getElem?_set_ne (by omega)]
        exact List.getElem?_set_self h3

/-- C2 witness: the theorem applied at a concrete two-case state. -/
theorem complete_case_spec_witness :
    ∃ rest b2,
      JobState.complete_case (JobState.Judging [CaseStatus.Running, CaseStatus.Pending] false) 0
        (CaseStatus.Passed none) = some (JobState.Judging rest b2) ∧
      rest.length = ([CaseStatus.Running, CaseStatus.Pending] : List CaseStatus).length ∧
      rest[0]? = some (CaseStatus.Passed none) ∧
      ((CaseStatus.Passed none).isFailed = true →
        0 ≠ ([CaseStatus.Running, CaseStatus.Pending] : List CaseStatus).length - 1 →
        b2 = true ∧ ∀ j, 0 < j → j < ([CaseStatus.Running, CaseStatus.Pending] : List CaseStatus).length →
          rest[j]? = some CaseStatus.NotRun) ∧
      (0 = ([CaseStatus.Running, CaseStatus.Pending] : List CaseStatus).length - 1 → b2 = true) ∧
      ((CaseStatus.Passed none).isFailed = false →
        0 ≠ ([CaseStatus.Running, CaseStatus.Pending] : List CaseStatus).length - 1 →
        rest[0 + 1]? = some CaseStatus.Running ∧ b2 = false) :=
  complete_case_spec [CaseStatus.Running, CaseStatus.Pending] false 0 (CaseStatus.Passed none)
    (by decide) (by decide)

/-! ## C1: at most one Running case -/

theorem isRunning_false_of_terminal {st : CaseStatus} (h : st.isTerminal = true) :
    st.isRunning = false := by
  cases st <;> simp_all [CaseStatus.isTerminal, CaseStatus.isRunning]

@[simp] theorem isRunning_Running : CaseStatus.Running.isRunning = true := rfl

@[simp] theorem isRunning_Pending : CaseStatus.Pending.isRunning = false := rfl

@[simp] theorem isRunning_NotRun : CaseStatus.NotRun.isRunning = false := rfl

@[simp] theorem isRunning_Passed (o : Option (List Char)) :
    (CaseStatus.Passed o).isRunning = false := rfl

@[simp] theorem isRunning_Failed (p : Bool) (m : List Char) :
    (CaseStatus.Failed p m).isRunning = false := rfl

/-- Key lemma: `complete_case` on a `Judging` state preserves
"at most one `Running` case", provided the stored status is not `Running`
and the step is either a failure or addressed at a `Running` index. -/
theorem runningCount_complete_case_le {cs : List CaseStatus} {b : Bool} {idx : Nat}
    {st : CaseStatus} {t : JobState}
    (hst : st.isRunning = false)
    (hc : (JobState.Judging cs b).runningCount ≤ 1)
    (hbr : st.isFailed = true ∨ cs[idx]? = some CaseStatus.Running)
    (h : JobState.complete_case (JobState.Judging cs b) idx st = some t) :
    t.runningCount ≤ 1 := by
  simp only [JobState.complete_case] at h
  simp only [JobState.runningCount] at hc ⊢
  by_cases h0 : cs.length = 0
  · rw [if_pos h0] at h
    exact absurd h (by simp)
  rw [if_neg h0] at h
  by_cases hlast : idx = cs.length - 1
  · rw [if_pos hlast] at h
    injection h with h
    subst h
    simp only [JobState.runningCount]
    have hidx : idx < cs.length := by omega
    obtain ⟨x, hx⟩ : ∃ x, cs[idx]? = some x := by
      rw [List.getElem?_eq_getElem hidx]
      exact ⟨_, rfl⟩
    have key := countP_set_of_getElem CaseStatus.isRunning cs idx st x hx
    rw [hst] at key
    cases hrx : CaseStatus.isRunning x <;> rw [hrx] at key <;> simp at key <;> omega
  · rw [if_neg hlast] at h
    by_cases hfail : st.isFailed = true
    · rw [if_pos hfail] at h
      by_cases hidx : idx < cs.length
      · rw [if_pos hidx] at h
        injection h with h
        subst h
        simp only [JobState.runningCount]
        have hlen2 : (cs.take (idx + 1) ++
            List.replicate (cs.length - (idx + 1)) CaseStatus.NotRun).length = cs.length := by
          simp
          omega
        obtain ⟨x, hx⟩ : ∃ x, (cs.take (idx + 1) ++
            List.replicate (cs.length - (idx + 1)) CaseStatus.NotRun)[idx]? = some x := by
          rw [List.getElem?_eq_getElem (by omega)]
          exact ⟨_, rfl⟩
        have key := countP_set_of_getElem CaseStatus.isRunning _ idx st x hx
        rw [hst] at key
        have htake : (cs.take (idx + 1)).countP CaseStatus.isRunning ≤
            cs.countP CaseStatus.isRunning :=
          (List.take_sublist _ _).countP_le _
        rw [List.countP_append, List.countP_replicate] at key
        simp only [isRunning_NotRun] at key
        cases hrx : CaseStatus.isRunning x <;> rw [hrx] at key <;> simp at key <;> omega
      · rw [if_neg hidx] at h
        exact absurd h (by simp)
    · rw [if_neg hfail] at h
      by_cases h3 : idx + 1 < cs.length
      · rw [if_pos h3] at h
        injection h with h
        subst h
        simp only [JobState.runningCount]
        have hrun : cs[idx]? = some CaseStatus.Running := by
          rcases hbr with hb | hb
          · exact absurd hb hfail
          · exact hb
        obtain ⟨x1, hx1⟩ : ∃ x1, cs[idx + 1]? = some x1 := by
          rw [List.getElem?_eq_getElem h3]
          exact ⟨_, rfl⟩
        have key1 := countP_set_of_getElem CaseStatus.isRunning cs (idx + 1)
          CaseStatus.Running x1 hx1
        have hx2 : (cs.set (idx + 1) CaseStatus.Running)[idx]? = some CaseStatus.Running := by
          rw [List.getElem?_set_ne (by omega)]
          exact hrun
        have key2 := countP_set_of_getElem CaseStatus.isRunning
          (cs.set (idx + 1) CaseStatus.Running) idx st CaseStatus.Running hx2
        rw [hst] at key2
        simp only [isRunning_Running] at key1 key2
        have hge1 : 1 ≤ cs.countP CaseStatus.isRunning := by
          rw [Nat.one_le_iff_ne_zero]
          intro hz
          have := List.countP_eq_zero.mp hz CaseStatus.Running (List.getElem?_mem hrun)
          simp at this
        cases hrx : CaseStatus.isRunning x1 <;>
          rw [hrx] at key1 <;> simp at key1 key2 <;> omega
      · rw [if_neg h3] at h
        exact absurd h (by simp)

/-- The states reachable through the job lifecycle of src/src/run/job.rs:
a fresh state from `new_judging`/`new_testing`, the result of `start_first`
on a fresh state, and after that `complete_case` applied to a currently
`Running` index with a terminal (`Passed`/`Failed`) status, or
`force_fail`. -/
inductive Reachable : JobState → Prop
  | newJudging (n : Nat) : Reachable (JobState.new_judging n)
  | newTesting : Reachable JobState.new_testing
  | startJudging {n : Nat} {t : JobState} :
      JobState.start_first (JobState.new_judging n) = some t → Reachable t
  | startTesting {t : JobState} :
      JobState.start_first JobState.new_testing = some t → Reachable t
  | step {s t : JobState} {idx : Nat} {st : CaseStatus} :
      Reachable s → s.isRunningAt idx → st.isTerminal = true →
      JobState.complete_case s idx st = some t → Reachable t
  | forceFail {s t : JobState} {msg : List Char} :
      Reachable s → JobState.force_fail s msg = some t → Reachable t

/-- C1: every `JobState` reachable through the job lifecycle (creation by
`new_judging` or `new_testing`, then `start_first`, then `complete_case`
applied to the successively running case indices, with `force_fail`
possibly applied) has at most one case in state `Running`. -/
theorem job_state_at_most_one_running (s : JobState) (h : Reachable s) :
    s.runningCount ≤ 1 := by
  induction h with
  | newJudging n =>
    simp [JobState.new_judging, JobState.runningCount, List.countP_replicate,
      CaseStatus.isRunning]
  | newTesting =>
    simp [JobState.new_testing, JobState.runningCount, CaseStatus.isRunning]
  | startJudging hs =>
    rename_i n t
    simp only [JobState.new_judging, JobState.start_first, List.length_replicate] at hs
    by_cases hn : 0 < n
    · rw [if_pos hn] at hs
      injection hs with hs
      subst hs
      simp only [JobState.runningCount]
      have hx : (List.replicate n CaseStatus.Pending)[0]? = some CaseStatus.Pending :=
        List.getElem?_replicate_of_lt hn
      have key := countP_set_of_getElem CaseStatus.isRunning _ 0 CaseStatus.Running
        CaseStatus.Pending hx
      simp only [CaseStatus.isRunning, List.countP_replicate] at key
      simp at key
      omega
    · rw [if_neg hn] at hs
      exact absurd hs (by simp)
  | startTesting hs =>
    simp only [JobState.new_testing, JobState.start_first] at hs
    injection hs with hs
    subst hs
    simp [JobState.runningCount, CaseStatus.isRunning]
  | @step s2 t idx st hr hrun hterm hcc ih =>
    cases s2 with
    | Judging cs b =>
      simp only [JobState.isRunningAt] at hrun
      exact runningCount_complete_case_le (isRunning_false_of_terminal hterm) ih
        (Or.inr hrun) hcc
    | Testing st0 =>
      simp only [JobState.complete_case] at hcc
      injection hcc with hcc
      subst hcc
      simp [JobState.runningCount, isRunning_false_of_terminal hterm]
  | @forceFail s2 t msg hr hff ih =>
    cases s2 with
    | Judging cs b =>
      simp only [JobState.force_fail] at hff
      refine runningCount_complete_case_le ?_ ih (Or.inl ?_) hff <;> rfl
    | Testing st0 =>
      simp only [JobState.force_fail] at hff
      injection hff with hff
      subst hff
      simp [JobState.runningCount]

/-- C1 witness: a concrete reachable state (two cases, first started). -/
theorem job_state_at_most_one_running_witness :
    JobState.runningCount (JobState.Judging [CaseStatus.Running, CaseStatus.Pending] false) ≤ 1 :=
  job_state_at_most_one_running _
    (@Reachable.startJudging 2 (JobState.Judging [CaseStatus.Running, CaseStatus.Pending] false)
      (by rfl))

/-! ## Case errors (src/src/run/worker/mod.rs and src/src/run/runner.rs) -/

/-- `CaseError` from src/src/run/worker/mod.rs. -/
inductive CaseError where
  | Logic
  | Cancelled
  | HardTimeLimitExceeded
  | CpuTimeExceeded (usec : Nat)
  | MemoryLimitExceeded (bytes : Nat)
  | Runtime (msg : List Char)
  | Compilation (msg : List Char)
  | Judge (msg : List Char)
deriving DecidableEq

/-- `CaseError::gives_penalty`:
`matches!(self, CpuTimeExceeded(_) | MemoryLimitExceeded(_) | Logic | Runtime(_))`. -/
def CaseError.gives_penalty : CaseError → Bool
  | CaseError.CpuTimeExceeded _ => true
  | CaseError.MemoryLimitExceeded _ => true
  | CaseError.Logic => true
  | CaseError.Runtime _ => true
  | _ => false

/-- `CaseError::should_kill_worker`:
`matches!(self, HardTimeLimitExceeded | CpuTimeExceeded(_) | MemoryLimitExceeded(_) | Judge(_))`. -/
def CaseError.should_kill_worker : CaseError → Bool
  | CaseError.HardTimeLimitExceeded => true
  | CaseError.CpuTimeExceeded _ => true
  | CaseError.MemoryLimitExceeded _ => true
  | CaseError.Judge _ => true
  | _ => false

/-- The runner-side `CaseError` type from src/src/run/runner.rs (a smaller,
older enum distinct from the worker-side one). -/
inductive RunnerCaseError where
  | Logic
  | Runtime (s : List Char)
  | Compilation (s : List Char)
  | Judge (s : List Char)
deriving DecidableEq

/-- The penalty flag that the `From<CaseError> for CaseStatus` impl in
src/src/run/runner.rs attaches to the resulting `Failed` status:
`matches!(val, CaseError::Logic | CaseError::Runtime(_))`. -/
def RunnerCaseError.caseStatusPenalty : RunnerCaseError → Bool
  | RunnerCaseError.Logic => true
  | RunnerCaseError.Runtime _ => true
  | _ => false

/-- C3: `gives_penalty` is true exactly for `CpuTimeExceeded`,
`MemoryLimitExceeded`, `Logic` and `Runtime`, and false exactly for
`Compilation`, `Judge`, `Cancelled` and `HardTimeLimitExceeded`; the
runner-side conversion to a `CaseStatus` likewise attaches the penalty flag
exactly for its `Logic` and `Runtime` variants. -/
theorem gives_penalty_spec :
    (∀ e : CaseError,
      e.gives_penalty = true ↔
        ((∃ n, e = CaseError.CpuTimeExceeded n) ∨
         (∃ n, e = CaseError.MemoryLimitExceeded n) ∨
         e = CaseError.Logic ∨
         (∃ s, e = CaseError.Runtime s))) ∧
    (∀ e : CaseError,
      e.gives_penalty = false ↔
        ((∃ s, e = CaseError.Compilation s) ∨
         (∃ s, e = CaseError.Judge s) ∨
         e = CaseError.Cancelled ∨
         e = CaseError.HardTimeLimitExceeded)) ∧
    (∀ e : RunnerCaseError,
      e.caseStatusPenalty = true ↔
        (e = RunnerCaseError.Logic ∨ ∃ s, e = RunnerCaseError.Runtime s)) := by
  refine ⟨fun e => ?_, fun e => ?_, fun e => ?_⟩ <;>
    cases e <;> simp [CaseError.gives_penalty, RunnerCaseError.caseStatusPenalty]

/-! ## Test cases and output checking (src/pkgs/backend/src/problems/cases.rs) -/

/-- The Unicode white-space characters stripped by Rust `str::trim`
(`char::is_whitespace`). -/
def isRustWhitespace (c : Char) : Bool :=
  ([9, 10, 11, 12, 13, 32, 133, 160, 5760, 8192, 8193, 8194, 8195, 8196,
    8197, 8198, 8199, 8200, 8201, 8202, 8232, 8233, 8239, 8287, 12288] :
    List Nat).contains c.toNat

/-- `str::trim_end`. -/
def rustTrimEnd (s : List Char) : List Char :=
  (s.reverse.dropWhile isRustWhitespace).reverse

/-- `str::trim`: strip whitespace from both ends. -/
def rustTrim (s : List Char) : List Char :=
  (rustTrimEnd s).dropWhile isRustWhitespace

theorem rustTrimEnd_append_ws (s w : List Char) (hw : w.all isRustWhitespace = true) :
    rustTrimEnd (s ++ w) = rustTrimEnd s := by
  simp only [rustTrimEnd, List.reverse_append]
  rw [dropWhile_append_of_all]
  intro x hx
  exact List.all_eq_true.mp hw x (List.mem_reverse.mp hx)

theorem rustTrim_append_ws (s w : List Char) (hw : w.all isRustWhitespace = true) :
    rustTrim (s ++ w) = rustTrim s := by
  simp only [rustTrim, rustTrimEnd_append_ws s w hw]

/-- Character-wise model of `str::to_lowercase` (ASCII case mapping; no
claim below depends on the case mapping itself). -/
def rustToLowercase (s : List Char) : List Char :=
  s.map Char.toLower

/-- Whether `pat` occurs as a contiguous run inside `hay`. -/
def containsSeq : List Char → List Char → Bool
  | pat, [] => pat.isEmpty
  | pat, c :: rest => pat.isPrefixOf (c :: rest) || containsSeq pat rest

theorem isPrefixOf_self_eq_true (l : List Char) : l.isPrefixOf l = true := by
  induction l with
  | nil => rfl
  | cons c t ih => simp [List.isPrefixOf, ih]

theorem containsSeq_self_eq_true (l : List Char) : containsSeq l l = true := by
  cases l with
  | nil => rfl
  | cons c t => simp [containsSeq, isPrefixOf_self_eq_true]

/-- Modelled from the regex crate: for a pattern free of regex
metacharacters, `Regex::is_match` reports whether the literal pattern text
occurs anywhere in the haystack, caselessly when `case_insensitive(true)`
is set; building such a literal pattern never fails.  The model is only
faithful for metacharacter-free patterns, which is what the claims below
quantify over. -/
def regexBuildLit (pat : List Char) (ci : Bool) :
    Except (List Char) (List Char → Bool) :=
  Except.ok (fun hay =>
    if ci then containsSeq (rustToLowercase pat) (rustToLowercase hay)
    else containsSeq pat hay)

/-- `TestCase` from src/pkgs/backend/src/problems/cases.rs. -/
structure TestCase where
  id : Int
  problem_id : Int
  ord : Int
  stdin : List Char
  expected_pattern : List Char
  use_regex : Bool
  case_insensitive : Bool

/-- `TestCase::check_output`, parameterized by the regex engine `build`:
with `use_regex` the pattern is built untrimmed (with the
case-insensitivity flag) and matched against the trimmed output; otherwise
output and pattern are both trimmed and compared, lowercasing both sides
when case-insensitive. -/
def TestCase.check_output_with
    (build : List Char → Bool → Except (List Char) (List Char → Bool))
    (tc : TestCase) (output : List Char) : Except (List Char) Bool :=
  if tc.use_regex then
    match build tc.expected_pattern tc.case_insensitive with
    | Except.error e => Except.error ((String.toList "Couldnt build regex: ") ++ e)
    | Except.ok re => Except.ok (re (rustTrim output))
  else
    if tc.case_insensitive then
      Except.ok (rustToLowercase (rustTrim output) ==
        rustToLowercase (rustTrim tc.expected_pattern))
    else
      Except.ok (rustTrim output == rustTrim tc.expected_pattern)

/-- `TestCase::check_output` with the literal-pattern regex model. -/
def TestCase.check_output (tc : TestCase) (output : List Char) :
    Except (List Char) Bool :=
  TestCase.check_output_with regexBuildLit tc output

/-- Regex metacharacters (ASCII codes of `\ . + * ? ( ) | [ ] ^ $` and the
two curly braces). -/
def isRegexMeta (c : Char) : Bool :=
  ([92, 46, 43, 42, 63, 40, 41, 124, 91, 93, 123, 125, 94, 36] :
    List Nat).contains c.toNat

/-- The pattern is a literal string: no regex metacharacters. -/
def noRegexMeta (pat : List Char) : Bool :=
  pat.all (fun c => !(isRegexMeta c))

/-! ## C8: literal pattern, regex vs literal comparison -/

/-- C8 counterexample: pattern "a" (no metacharacters), output "ab".
With `use_regex` the engine reports a match anywhere in the trimmed output
(substring search), so the verdict is pass; without `use_regex` the
comparison is equality, so the verdict is fail. -/
theorem regex_literal_verdict_counterexample :
    noRegexMeta (String.toList "a") = true ∧
    TestCase.check_output
      { id := 0, problem_id := 0, ord := 0, stdin := [],
        expected_pattern := String.toList "a", use_regex := true,
        case_insensitive := false } (String.toList "ab") = Except.ok true ∧
    TestCase.check_output
      { id := 0, problem_id := 0, ord := 0, stdin := [],
        expected_pattern := String.toList "a", use_regex := false,
        case_insensitive := false } (String.toList "ab") = Except.ok false :=
  ⟨rfl, rfl, rfl⟩

/-- C8 (amended): for a metacharacter-free pattern with no surrounding
whitespace, a passing verdict under the literal comparison implies a
passing verdict under the regex comparison (the regex match is a substring
search on the trimmed output, and equality implies containment); the
converse fails, see the counterexample. -/
theorem regex_literal_verdict_amended (tc : TestCase) (output : List Char)
    (hmeta : noRegexMeta tc.expected_pattern = true)
    (htrim : rustTrim tc.expected_pattern = tc.expected_pattern)
    (hlit : TestCase.check_output { tc with use_regex := false } output = Except.ok true) :
    TestCase.check_output { tc with use_regex := true } output = Except.ok true := by
  obtain ⟨i, p, od, sin, pat, ur, ci⟩ := tc
  simp only [TestCase.check_output, TestCase.check_output_with, regexBuildLit] at hlit ⊢
  cases ci with
  | false =>
    simp at hlit ⊢
    rw [hlit, htrim]
    exact containsSeq_self_eq_true pat
  | true =>
    simp at hlit ⊢
    rw [hlit, htrim]
    exact containsSeq_self_eq_true (rustToLowercase pat)

/-- C8 witness: the amended theorem applied at pattern "a", output "a". -/
theorem regex_literal_verdict_amended_witness :
    TestCase.check_output
      { id := 0, problem_id := 0, ord := 0, stdin := [],
        expected_pattern := String.toList "a", use_regex := true,
        case_insensitive := false } (String.toList "a") = Except.ok true :=
  regex_literal_verdict_amended
    { id := 0, problem_id := 0, ord := 0, stdin := [],
      expected_pattern := String.toList "a", use_regex := true,
      case_insensitive := false } (String.toList "a") rfl rfl rfl

/-! ## C9: trailing whitespace invariance -/

/-- C9 counterexample: with `use_regex` the expected pattern is not trimmed
(only the output is), so appending a trailing space to the pattern changes
the verdict: pattern "a" matches output "a" but pattern "a " does not. -/
theorem trailing_whitespace_counterexample :
    TestCase.check_output
      { id := 0, problem_id := 0, ord := 0, stdin := [],
        expected_pattern := String.toList "a", use_regex := true,
        case_insensitive := false } (String.toList "a") = Except.ok true ∧
    TestCase.check_output
      { id := 0, problem_id := 0, ord := 0, stdin := [],
        expected_pattern := String.toList "a ", use_regex := true,
        case_insensitive := false } (String.toList "a") = Except.ok false :=
  ⟨rfl, rfl⟩

/-- C9 (amended): the verdict of `check_output` is invariant under trailing
whitespace on the output in both branches and for any regex engine (the
output is trimmed before matching or comparing); it is invariant under
trailing whitespace on the expected pattern only when `use_regex` is false,
where the pattern is trimmed too — the regex branch uses the pattern
untrimmed (see the counterexample). -/
theorem trailing_whitespace_amended
    (build : List Char → Bool → Except (List Char) (List Char → Bool))
    (tc : TestCase) (output w : List Char)
    (hw : w.all isRustWhitespace = true) :
    TestCase.check_output_with build tc (output ++ w) =
      TestCase.check_output_with build tc output ∧
    (tc.use_regex = false →
      TestCase.check_output_with build
        { tc with expected_pattern := tc.expected_pattern ++ w } output =
        TestCase.check_output_with build tc output) := by
  obtain ⟨i, p, od, sin, pat, ur, ci⟩ := tc
  constructor
  · simp only [TestCase.check_output_with, rustTrim_append_ws output w hw]
  · intro hur
    dsimp only at hur
    subst hur
    simp only [TestCase.check_output_with, rustTrim_append_ws pat w hw]
    simp

/-- C9 witness: the amended theorem applied at pattern "a", output "a",
trailing whitespace " ", with the literal regex model as the engine. -/
theorem trailing_whitespace_amended_witness :
    (TestCase.check_output_with regexBuildLit
      { id := 0, problem_id := 0, ord := 0, stdin := [],
        expected_pattern := String.toList "a", use_regex := false,
        case_insensitive := false } (String.toList "a" ++ String.toList " ") =
     TestCase.check_output_with regexBuildLit
      { id := 0, problem_id := 0, ord := 0, stdin := [],
        expected_pattern := String.toList "a", use_regex := false,
        case_insensitive := false } (String.toList "a")) ∧
    (TestCase.use_regex
      { id := 0, problem_id := 0, ord := 0, stdin := [],
        expected_pattern := String.toList "a", use_regex := false,
        case_insensitive := false } = false →
     TestCase.check_output_with regexBuildLit
      { id := 0, problem_id := 0, ord := 0, stdin := [],
        expected_pattern := String.toList "a" ++ String.toList " ", use_regex := false,
        case_insensitive := false } (String.toList "a") =
     TestCase.check_output_with regexBuildLit
      { id := 0, problem_id := 0, ord := 0, stdin := [],
        expected_pattern := String.toList "a", use_regex := false,
        case_insensitive := false } (String.toList "a")) :=
  trailing_whitespace_amended regexBuildLit
    { id := 0, problem_id := 0, ord := 0, stdin := [],
      expected_pattern := String.toList "a", use_regex := false,
      case_insensitive := false } (String.toList "a") (String.toList " ") rfl

/-! ## Worker-side command execution (src/src/run/worker/worker_side.rs) -/

/-- `std::process::Stdio` configurations. -/
inductive Stdio where
  | piped
  | null
  | inherit
deriving DecidableEq

/-- Stdio configuration of a spawned command. -/
structure SpawnStdio where
  stdin : Stdio
  stdout : Stdio
  stderr : Stdio
deriving DecidableEq

/-- The stdio configuration the worker-side controller applies before
spawning a `RunCmd` command: `cmd.envs(env).stdin(piped-or-null)`. Stdout
and stderr are left unconfigured, which for `spawn` defaults them to
`inherit` (not `piped`). -/
def workerSpawnStdio (stdin : Option (List Char)) : SpawnStdio :=
  { stdin := if stdin.isSome then Stdio.piped else Stdio.null,
    stdout := Stdio.inherit,
    stderr := Stdio.inherit }

/-- `CmdResult` from src/src/run/worker/mod.rs with the `CmdOutput` and
`CmdExit` payloads inlined. -/
inductive CmdResult where
  | Success (stdout stderr : List Char)
  | Failure (stdout stderr : List Char) (status : Option Int) (signal : Option Int)
deriving DecidableEq

/-- `Child::wait_with_output` collects output only from piped handles; an
inherited handle is absent on the child and yields an empty capture. -/
def capturedStream (cfg : Stdio) (written : List Char) : List Char :=
  if cfg = Stdio.piped then written else []

/-- `From<Output> for CmdResult`: `Success` on a zero exit status, else
`Failure` with the exit code or signal. -/
def cmdResultOfOutput (success : Bool) (code signal : Option Int)
    (stdout stderr : List Char) : CmdResult :=
  if success then CmdResult.Success stdout stderr
  else CmdResult.Failure stdout stderr code signal

/-- The `CmdComplete` payload the worker-side `run_cmd` sends back for a
command whose child wrote `childStdout`/`childStderr` and exited as given:
the captured output is what `wait_with_output` collects under the stdio
configuration `workerSpawnStdio` applies. -/
def workerRunCmdReply (stdinArg : Option (List Char))
    (childStdout childStderr : List Char) (success : Bool)
    (code signal : Option Int) : CmdResult :=
  cmdResultOfOutput success code signal
    (capturedStream (workerSpawnStdio stdinArg).stdout childStdout)
    (capturedStream (workerSpawnStdio stdinArg).stderr childStderr)

/-- C4 (code bug): the worker-side controller pipes stdin when provided and
nulls it otherwise, but never pipes stdout or stderr — they stay at the
spawn default `inherit` — so the `CmdComplete` reply carries empty captured
output even when the child wrote to stdout and stderr, contrary to the
claimed piped capture. -/
theorem worker_run_cmd_stdio_not_piped :
    (workerSpawnStdio (some (String.toList "in"))).stdin = Stdio.piped ∧
    (workerSpawnStdio none).stdin = Stdio.null ∧
    (workerSpawnStdio none).stdout = Stdio.inherit ∧
    (workerSpawnStdio none).stderr = Stdio.inherit ∧
    workerRunCmdReply none (String.toList "hello") (String.toList "oops") true (some 0) none =
      CmdResult.Success [] [] ∧
    workerRunCmdReply none (String.toList "hello") (String.toList "oops") false (some 1) none =
      CmdResult.Failure [] [] (some 1) none :=
  ⟨rfl, rfl, rfl, rfl, rfl, rfl⟩

/-! ## Service-side worker supervision (src/src/run/worker/service_side.rs) -/

/-- Observable kill actions of the service-side `Worker`, in order. -/
inductive KillStep where
  | sigkillSub (pid : Int)
  | killChild
  | waitChild
deriving DecidableEq

/-- The ESRCH errno (no such process), tolerated by `kill_sub_child`. -/
def ESRCH : Int := 3

/-- `Worker::kill_sub_child`: SIGKILL the recorded grandchild PID, treating
`Ok` and `Err(ESRCH)` as success and any other errno as an error.
`killErrno` gives the errno (if any) the kill syscall returns for a PID. -/
def kill_sub_child (subChildPid : Option Int) (killErrno : Int → Option Int) :
    Except (List Char) (List KillStep) :=
  match subChildPid with
  | none => Except.ok []
  | some pid =>
    match killErrno pid with
    | none => Except.ok [KillStep.sigkillSub pid]
    | some e =>
      if e = ESRCH then Except.ok [KillStep.sigkillSub pid]
      else Except.error (String.toList "Couldnt kill sub-child process")

/-- `Worker::kill_child`: kill the grandchild first, then kill the direct
child if it is still alive, then await it. -/
def kill_child (subChildPid : Option Int) (childAlive : Bool)
    (killErrno : Int → Option Int) : Except (List Char) (List KillStep) :=
  match kill_sub_child subChildPid killErrno with
  | Except.error e => Except.error e
  | Except.ok steps =>
    Except.ok (steps ++ (if childAlive then [KillStep.killChild] else []) ++
      [KillStep.waitChild])

/-- `Worker::kill_child_sync` (the `Drop` teardown path): kill the
grandchild, then SIGKILL and reap the direct child if it still exists (the
cgroup teardown that follows is not modelled). -/
def kill_child_sync (subChildPid : Option Int) (childAlive : Bool)
    (killErrno : Int → Option Int) : Except (List Char) (List KillStep) :=
  match kill_sub_child subChildPid killErrno with
  | Except.error e => Except.error e
  | Except.ok steps =>
    Except.ok (steps ++ (if childAlive then [KillStep.killChild, KillStep.waitChild] else []))

/-- `Worker::exec_cmd` around the result of `_exec_cmd`: on an error for
which `should_kill_worker` holds, run `kill_child` and return the error;
otherwise pass the result through with no kill. -/
def exec_cmd_post (res : Except CaseError (List Char)) (subChildPid : Option Int)
    (childAlive : Bool) (killErrno : Int → Option Int) :
    Except (List Char) (List KillStep × Except CaseError (List Char)) :=
  match res with
  | Except.error e =>
    if e.should_kill_worker then
      match kill_child subChildPid childAlive killErrno with
      | Except.error msg => Except.error msg
      | Except.ok steps => Except.ok (steps, Except.error e)
    else Except.ok ([], Except.error e)
  | Except.ok v => Except.ok ([], Except.ok v)

/-- C6: `should_kill_worker` holds exactly for `HardTimeLimitExceeded`,
`CpuTimeExceeded`, `MemoryLimitExceeded` and `Judge`; after a command whose
result is such an error, `exec_cmd` SIGKILLs the grandchild PID (tolerating
ESRCH), kills the live direct child and awaits it, in that order, before
returning the error; for any other error nothing is killed. -/
theorem should_kill_worker_spec (e : CaseError) (pid : Int) (childAlive : Bool)
    (killErrno : Int → Option Int)
    (hk : killErrno pid = none ∨ killErrno pid = some ESRCH) :
    (e.should_kill_worker = true ↔
      (e = CaseError.HardTimeLimitExceeded ∨ (∃ n, e = CaseError.CpuTimeExceeded n) ∨
       (∃ n, e = CaseError.MemoryLimitExceeded n) ∨ (∃ s, e = CaseError.Judge s))) ∧
    (e.should_kill_worker = true →
      exec_cmd_post (Except.error e) (some pid) childAlive killErrno =
        Except.ok ([KillStep.sigkillSub pid] ++
          (if childAlive then [KillStep.killChild] else []) ++ [KillStep.waitChild],
          Except.error e)) ∧
    (e.should_kill_worker = false →
      exec_cmd_post (Except.error e) (some pid) childAlive killErrno =
        Except.ok ([], Except.error e)) := by
  refine ⟨?_, ?_, ?_⟩
  · cases e <;> simp [CaseError.should_kill_worker]
  · intro hskw
    rcases hk with hk | hk <;>
      simp [exec_cmd_post, hskw, kill_child, kill_sub_child, hk, ESRCH]
  · intro hskw
    simp [exec_cmd_post, hskw]

/-- C6 witness: a judge error, grandchild PID 42, live child, clean kill. -/
theorem should_kill_worker_spec_witness :
    exec_cmd_post (Except.error (CaseError.Judge (String.toList "boom"))) (some 42) true
      (fun _ => none) =
      Except.ok ([KillStep.sigkillSub 42, KillStep.killChild, KillStep.waitChild],
        Except.error (CaseError.Judge (String.toList "boom"))) :=
  (should_kill_worker_spec (CaseError.Judge (String.toList "boom")) 42 true
    (fun _ => none) (Or.inl rfl)).2.1 rfl

/-! ## C7: cancellation during command execution -/

/-- `WorkerMessage` from src/src/run/worker/mod.rs (worker-to-service;
the Rust variant named `CaseError` is rendered `CaseErrorMsg`). -/
inductive WorkerMessage where
  | CmdComplete (r : CmdResult)
  | RequestUidGidMap (pid : Int)
  | InternalError (msg : List Char)
  | Ready
  | Cancelled
  | TimedOut
  | CaseErrorMsg (e : CaseError)
deriving DecidableEq

/-- `WorkerMessage::is_internal`. -/
def WorkerMessage.is_internal : WorkerMessage → Bool
  | WorkerMessage.Cancelled => true
  | WorkerMessage.TimedOut => true
  | WorkerMessage.InternalError _ => true
  | _ => false

/-- Which branch of the `select!` inside `Worker::wait_for` fires first
while a reply is awaited: the reply future completes with a parsed message,
the cancellation token fires, or the hard timeout elapses. -/
inductive MsgWait where
  | arrived (m : WorkerMessage)
  | cancelFired
  | timeoutFired
deriving DecidableEq

/-- `Worker::wait_for_new_message` over `Worker::wait_for`: an arrived
`InternalError` or internal marker message is an error; a fired
cancellation token yields `WorkerMessage::Cancelled`; an elapsed hard
timeout yields `WorkerMessage::TimedOut`. -/
def wait_for_new_message (w : MsgWait) : Except (List Char) WorkerMessage :=
  match w with
  | MsgWait.arrived m =>
    match m with
    | WorkerMessage.InternalError why =>
        Except.error ((String.toList "Worker internal error: ") ++ why)
    | m =>
        if m.is_internal then Except.error (String.toList "Unexpected internal message")
        else Except.ok m
  | MsgWait.cancelFired => Except.ok WorkerMessage.Cancelled
  | MsgWait.timeoutFired => Except.ok WorkerMessage.TimedOut

/-- `CmdFailure::interpret_exit_status` (numeric rendering; the symbolic
signal-name lookup through the nix crate is not modelled). -/
def interpret_exit_status (status signal : Option Int) : List Char :=
  String.toList "Process exited " ++
    (match status with
     | some code => String.toList "with exit code " ++ String.toList (toString code)
     | none =>
       match signal with
       | some signo => String.toList "with signal " ++ String.toList (toString signo)
       | none => String.toList "unexpectedly")

/-- `CmdFailure::stdout_stderr`: stdout, then the trimmed stderr on a new
line when nonempty. -/
def cmd_stdout_stderr (out err : List Char) : List Char :=
  out ++ (if (rustTrim err).isEmpty then [] else '\n' :: rustTrim err)

/-- `Display for CmdFailure`. -/
def cmdFailureMessage (out err : List Char) (status signal : Option Int) : List Char :=
  interpret_exit_status status signal ++ ['\n', '\n'] ++ cmd_stdout_stderr out err

/-- The match on the awaited message inside `Worker::_exec_cmd`: a
successful completion returns the captured stdout (after the cgroup stat
check, summarized by `statCheck`, when stats are tracked); a failure
becomes `Runtime`; the cancellation marker becomes `CaseError::Cancelled`;
the timeout marker becomes `HardTimeLimitExceeded`; anything else is an
internal (judge) error. -/
def exec_msg_result (m : WorkerMessage) (statCheck : Except CaseError Unit) :
    Except CaseError (List Char) :=
  match m with
  | WorkerMessage.CmdComplete (CmdResult.Success out _) =>
    (match statCheck with
     | Except.ok _ => Except.ok out
     | Except.error e => Except.error e)
  | WorkerMessage.CmdComplete (CmdResult.Failure out err code sig) =>
    Except.error (CaseError.Runtime (cmdFailureMessage out err code sig))
  | WorkerMessage.Cancelled => Except.error CaseError.Cancelled
  | WorkerMessage.TimedOut => Except.error CaseError.HardTimeLimitExceeded
  | _ => Except.error (CaseError.Judge (String.toList "Unexpected worker response"))

/-- `Worker::_exec_cmd` folded over the select outcome (message branch; an
error from `wait_for_new_message` propagates as a judge error). -/
def exec_cmd_result (w : MsgWait) (statCheck : Except CaseError Unit) :
    Except CaseError (List Char) :=
  match wait_for_new_message w with
  | Except.error msg => Except.error (CaseError.Judge msg)
  | Except.ok m => exec_msg_result m statCheck

/-- `Worker::exec_cmd`: the select outcome and stat check of `_exec_cmd`,
followed by the `should_kill_worker` kill logic. -/
def exec_cmd_model (w : MsgWait) (statCheck : Except CaseError Unit)
    (subChildPid : Option Int) (childAlive : Bool) (killErrno : Int → Option Int) :
    Except (List Char) (List KillStep × Except CaseError (List Char)) :=
  exec_cmd_post (exec_cmd_result w statCheck) subChildPid childAlive killErrno

/-- C7 counterexample: the cancellation token fires while the reply is
awaited (grandchild PID 42 recorded, child alive): the execution returns
`CaseError::Cancelled` but the kill-step list is empty — `exec_cmd` kills
only on `should_kill_worker` errors and `Cancelled` is not one of them, so
the child tree is not killed by the execution, contrary to the claim. -/
theorem cancelled_no_kill_counterexample :
    exec_cmd_model MsgWait.cancelFired (Except.ok ()) (some 42) true (fun _ => none) =
      Except.ok ([], Except.error CaseError.Cancelled) ∧
    CaseError.Cancelled.should_kill_worker = false :=
  ⟨rfl, rfl⟩

/-- C7 (amended): when the cancellation token fires while the command reply
is awaited, the execution returns `CaseError::Cancelled` and performs no
kill itself, because `should_kill_worker(Cancelled)` is false; the child
tree (grandchild PID, then direct child) is killed by the separate teardown
path (`Worker::kill_child_sync`, run from `drop`, or `finish`). -/
theorem cancelled_returns_without_kill (statCheck : Except CaseError Unit)
    (pid : Int) (childAlive : Bool) (killErrno : Int → Option Int)
    (hk : killErrno pid = none) :
    exec_cmd_model MsgWait.cancelFired statCheck (some pid) childAlive killErrno =
      Except.ok ([], Except.error CaseError.Cancelled) ∧
    CaseError.Cancelled.should_kill_worker = false ∧
    kill_child_sync (some pid) true killErrno =
      Except.ok [KillStep.sigkillSub pid, KillStep.killChild, KillStep.waitChild] := by
  refine ⟨rfl, rfl, ?_⟩
  simp [kill_child_sync, kill_sub_child, hk]

/-- C7 witness for the amended theorem at concrete inputs. -/
theorem cancelled_returns_without_kill_witness :
    exec_cmd_model MsgWait.cancelFired (Except.ok ()) (some 7) false (fun _ => none) =
      Except.ok ([], Except.error CaseError.Cancelled) ∧
    CaseError.Cancelled.should_kill_worker = false ∧
    kill_child_sync (some 7) true (fun _ => none) =
      Except.ok [KillStep.sigkillSub 7, KillStep.killChild, KillStep.waitChild] :=
  cancelled_returns_without_kill (Except.ok ()) 7 false (fun _ => none) rfl

/-! ## C5: RunManager admission (src/src/run/manager.rs) -/

/-- The slice of `RunManager` state that decides admission: the configured
maximum program length, the configured language keys, and the jobs map
(`none`: no entry for the user; `some b`: an entry whose slot is live when
`b` is true). -/
structure RunManagerModel where
  max_program_length : Nat
  languages : List (List Char)
  jobs : Int → Option Bool

/-- `RunManager::create_job_request`: resolve the language key (the id
counter and the assembled request are not modelled). -/
def create_job_request (m : RunManagerModel) (language_key : List Char) :
    Except (List Char) Unit :=
  if m.languages.contains language_key then Except.ok ()
  else Except.error (String.toList "Language " ++ language_key ++
    String.toList " not found")

/-- `RunManager::start_job`: reject a program longer than
`max_program_length`, otherwise register the slot, spawn the job task and
return `Ok` (the spawned task is not modelled). -/
def start_job (m : RunManagerModel) (program : List Char) : Except (List Char) Unit :=
  if program.length > m.max_program_length then
    Except.error (String.toList "Program too long, max length is " ++
      String.toList (toString m.max_program_length) ++ String.toList " bytes")
  else Except.ok ()

/-- `RunManager::request_job`: reject when the user already has a live
slot (an entry whose option is occupied); otherwise resolve the language,
then length-check and start. -/
def request_job (m : RunManagerModel) (user_id : Int) (language_key : List Char)
    (program : List Char) : Except (List Char) Unit :=
  match m.jobs user_id with
  | some true => Except.error (String.toList "User already has a job running")
  | _ =>
    match create_job_request m language_key with
    | Except.error e => Except.error e
    | Except.ok _ => start_job m program

/-- C5: `request_job` returns `Ok` exactly when the requesting user has no
live job slot, the language key resolves, and the program length does not
exceed the configured maximum; in particular a program whose length equals
`max_program_length` is admitted (when the other conditions hold) and one
of length `max_program_length + 1` is rejected. -/
theorem request_job_admission_spec (m : RunManagerModel) (u : Int)
    (k program : List Char) (c : Char) :
    (request_job m u k program = Except.ok () ↔
      (m.jobs u ≠ some true ∧ m.languages.contains k = true ∧
        program.length ≤ m.max_program_length)) ∧
    (request_job m u k (List.replicate m.max_program_length c) = Except.ok () ↔
      (m.jobs u ≠ some true ∧ m.languages.contains k = true)) ∧
    request_job m u k (List.replicate (m.max_program_length + 1) c) ≠ Except.ok () := by
  have main : ∀ prog : List Char,
      (request_job m u k prog = Except.ok () ↔
        (m.jobs u ≠ some true ∧ m.languages.contains k = true ∧
          prog.length ≤ m.max_program_length)) := by
    intro prog
    rcases hj : m.jobs u with _ | b
    · by_cases hc : k ∈ m.languages
      · by_cases hl : prog.length ≤ m.max_program_length
        · simp [request_job, create_job_request, start_job, hj, hc, hl, Nat.not_lt.mpr hl]
        · simp [request_job, create_job_request, start_job, hj, hc, hl, Nat.lt_of_not_le hl]
      · simp [request_job, create_job_request, hj, hc]
    · cases b
      · by_cases hc : k ∈ m.languages
        · by_cases hl : prog.length ≤ m.max_program_length
          · simp [request_job, create_job_request, start_job, hj, hc, hl, Nat.not_lt.mpr hl]
          · simp [request_job, create_job_request, start_job, hj, hc, hl, Nat.lt_of_not_le hl]
        · simp [request_job, create_job_request, hj, hc]
      · simp [request_job, hj]
  refine ⟨main program, ?_, ?_⟩
  · have h := main (List.replicate m.max_program_length c)
    simpa using h
  · have h := main (List.replicate (m.max_program_length + 1) c)
    simp at h
    exact h

/-- C5 witness: a concrete manager model (maximum length 2, one language,
no live slots) with a length-2 program at the boundary. -/
theorem request_job_admission_spec_witness :
    (request_job
        { max_program_length := 2, languages := [String.toList "py"],
          jobs := fun _ => none } 5 (String.toList "py") (String.toList "ab") =
        Except.ok () ↔
      ((none : Option Bool) ≠ some true ∧
        ([String.toList "py"].contains (String.toList "py")) = true ∧
        (String.toList "ab").length ≤ 2)) ∧
    (request_job
        { max_program_length := 2, languages := [String.toList "py"],
          jobs := fun _ => none } 5 (String.toList "py") (List.replicate 2 'a') =
        Except.ok () ↔
      ((none : Option Bool) ≠ some true ∧
        ([String.toList "py"].contains (String.toList "py")) = true)) ∧
    request_job
        { max_program_length := 2, languages := [String.toList "py"],
          jobs := fun _ => none } 5 (String.toList "py") (List.replicate 3 'a') ≠
      Except.ok () :=
  request_job_admission_spec
    { max_program_length := 2, languages := [String.toList "py"], jobs := fun _ => none }
    5 (String.toList "py") (String.toList "ab") 'a'
